import Mathlib

/-!
Shallow embedding of the calibration and baseline-fitting core of the
dysh repository (src/dysh/spectra/core.py), together with theorems
settling the specification claims about it.

Modelling conventions:
* numpy float arrays are `List ℚ`; NaN samples of a spectrum's data
  array are `Option ℚ` with `none` standing for NaN (the flux values
  themselves never need NaN in the claims settled here);
* Python exceptions are an explicit error type `PyErr` threaded through
  `Except`;
* Python slice and index semantics (negative indices, clamping) are
  reproduced by `pySlice` / `pyIndex`;
* numpy 1-D broadcasting of binary operations is `npBroadcast2`;
* astropy unit conversion and the spectral-axis service are external
  collaborators; a velocity-to-axis conversion is carried as a field of
  `Spectrum` and quantities carry a unit tag (`SpecUnit`).
-/

namespace Dysh

/-- Python exception kinds observable from the embedded code paths. -/
inductive PyErr where
  | exception             -- a bare `raise Exception(msg)`
  | nameError             -- f-string references an undefined variable
  | indexError            -- sequence index out of range
  | valueError            -- e.g. numpy broadcast failure, bad argument
  | keyError              -- dict lookup of a missing key
  | typeError
  | attributeError
  | zeroDivisionError
  | unitConversionError   -- astropy comparing/converting non-equivalent units
deriving DecidableEq, Repr

deriving instance DecidableEq for Except

/-- Normalized stop bound of a Python slice `a[start:stop]` over a list of
length `len`: a negative `stop` counts from the end, and the result is
clamped into `[0, len]`. -/
def pySliceStop (len : Nat) (stop : Int) : Nat :=
  min (if stop < 0 then (len : Int) + stop else stop).toNat len

/-- Python slice `xs[start:stop]` with a non-negative `start` and a possibly
negative `stop` (all that the embedded code needs). -/
def pySlice (xs : List ℚ) (start : Nat) (stop : Int) : List ℚ :=
  (xs.take (pySliceStop xs.length stop)).drop start

/-- The edge-trimming slice `xs[nedge:-(nedge-1)]` used (for both modes) by
`dcmeantsys` in src/dysh/spectra/core.py lines 262-266.  `-(nedge-1)`
is computed in ℤ, exactly as Python does. -/
def trim (xs : List ℚ) (nedge : Nat) : List ℚ :=
  pySlice xs nedge (1 - (nedge : Int))

/-- numpy 1-D broadcasting of a binary elementwise operation: equal lengths
combine pointwise, a length-1 operand is stretched, anything else is a
broadcast `ValueError`. -/
def npBroadcast2 (f : ℚ → ℚ → ℚ) (a b : List ℚ) : Option (List ℚ) :=
  if a.length = b.length then some (List.zipWith f a b)
  else
    match a, b with
    | [x], l => some (l.map (fun y => f x y))
    | l, [y] => some (l.map (fun x => f x y))
    | _, _ => none

/-- `np.mean` of a 1-D array.  (For the empty array numpy yields NaN with a
warning; every theorem below that consults a mean does so on a nonempty
window, so the junk value `0/0 = 0` of ℚ is never relied upon.) -/
def npMean (xs : List ℚ) : ℚ := xs.sum / (xs.length : ℚ)

/-- Body of `dcmeantsys` after the edge size `nedge` has been resolved
(src/dysh/spectra/core.py lines 261-268).  `mode == 0` takes the mean
before the division, any other mode after it.  A numpy broadcast failure
in the array arithmetic surfaces as a `ValueError`. -/
def dcmeantsysCore (calon caloff : List ℚ) (tcal : ℚ) (mode : Int)
    (nedge : Nat) : Except PyErr ℚ :=
  if mode = 0 then
    let meanoff := npMean (trim caloff nedge)
    match npBroadcast2 (fun a b => a - b) (trim calon nedge) (trim caloff nedge) with
    | none => .error .valueError
    | some diff => .ok (meanoff / npMean diff * tcal + tcal / 2)
  else
    match npBroadcast2 (fun a b => a - b) (trim calon nedge) (trim caloff nedge) with
    | none => .error .valueError
    | some diff =>
      match npBroadcast2 (fun a b => a / b) (trim caloff nedge) diff with
      | none => .error .valueError
      | some ratio => .ok (npMean ratio * tcal + tcal / 2)

/-- `dcmeantsys(calon, caloff, tcal, mode=0, fedge=10, nedge=None)` from
src/dysh/spectra/core.py lines 219-268.  `nchan = len(calon)`; when
`nedge` is not given it is `nchan // fedge` (Python integer division,
raising `ZeroDivisionError` for `fedge = 0`). -/
def dcmeantsys (calon caloff : List ℚ) (tcal : ℚ) (mode : Int)
    (fedge : Nat) (nedge? : Option Nat) : Except PyErr ℚ :=
  let nchan := calon.length
  match nedge? with
  | none =>
    if fedge = 0 then .error .zeroDivisionError
    else dcmeantsysCore calon caloff tcal mode (nchan / fedge)
  | some n => dcmeantsysCore calon caloff tcal mode n

/-- The edge size `dcmeantsys` effectively uses: the `nedge` argument when
given, else `nchan // fedge`. -/
def dcNedge (nchan fedge : Nat) (nedge? : Option Nat) : Nat :=
  match nedge? with
  | some n => n
  | none => nchan / fedge

/-- `veldef_to_convention(veldef)` from src/dysh/spectra/core.py lines
270-292, over the string's character list: the first four characters are
lowercased and matched against the recognized velocity-definition
prefixes. -/
def veldef_to_convention (veldef : List Char) : Option String :=
  if (veldef.take 4).map Char.toLower = "opti".toList then some "optical"
  else if (veldef.take 4).map Char.toLower = "velo".toList ∨
      (veldef.take 4).map Char.toLower = "radi".toList then some "radio"
  else if (veldef.take 4).map Char.toLower = "rela".toList then some "relativistic"
  else none

/-! ### Spectra, exclusion regions and the baseline fitter -/

/-- Unit tag of an astropy Quantity as far as the embedded code paths
distinguish units: a spectral-axis-like (frequency) unit versus a
velocity unit ("equivalent to km/s"). -/
inductive SpecUnit where
  | freq
  | vel
deriving DecidableEq, Repr

/-- An astropy Quantity: a value with a unit tag. -/
structure Quantity where
  val : ℚ
  unit : SpecUnit
deriving DecidableEq, Repr

/-- A `specutils.SpectralRegion` as consulted by the embedded code paths:
only its `bounds` (lower, upper) are ever read, so the region is its
bounds.  (A compound region is represented by its extreme bounds.) -/
structure SpectralRegion where
  lower : Quantity
  upper : Quantity
deriving DecidableEq, Repr

/-- The `Spectrum` state used by `baseline`/`exclude_to_region`: the flux
data (with `none` for NaN samples), the spectral axis values (in the
axis unit, tagged `SpecUnit.freq`), the external astropy conversion of a
velocity value into axis units together with the precomputed offset
`rest_value - radial_velocity.to(axis unit)` (both are services of the
out-of-scope unit-conversion collaborator), and the mutable
`_exclude_regions` attribute (a list of regions, or Python `None`). -/
structure Spectrum where
  data : List (Option ℚ)
  spectral_axis : List ℚ
  velToAxis : ℚ → ℚ
  velOffset : ℚ
  exclude_regions : Option (List SpectralRegion)

/-- Python sequence indexing `xs[i]` with negative-index wraparound and
`IndexError` out of range. -/
def pyIndex (xs : List ℚ) (i : Int) : Option ℚ :=
  let j : Int := if i < 0 then (xs.length : Int) + i else i
  if j < 0 then none else xs.get? j.toNat

/-- `q.to(sa.unit, equivalencies=p.equivalencies)`: identity on values
already in axis units, the external conversion for velocity values. -/
def qConvert (p : Spectrum) (q : Quantity) : ℚ :=
  match q.unit with
  | .freq => q.val
  | .vel => p.velToAxis q.val

/-- One element of an `exclude` list: a channel-index pair of Python ints
or a pair of physical-unit Quantities (the two documented pair forms). -/
inductive ExcPair where
  | chans (lo hi : Int)
  | quants (q0 q1 : Quantity)
deriving DecidableEq, Repr

/-- The documented shapes of the `exclude` argument: one pre-built
`SpectralRegion`, one flat pair (which the `np.shape(exclude[0])` check
wraps into a one-element list), or a list of pairs. -/
inductive Exclude where
  | single (r : SpectralRegion)
  | onePair (p : ExcPair)
  | pairList (ps : List ExcPair)

/-- The Quantity stage of `exclude_to_region`'s per-pair loop
(src/dysh/spectra/core.py lines 93-110): apply the velocity offset and
unit conversion, sort the pair, bounds-check against `sa[0]`/`sa[-1]`;
with `fix_exclude` the upper limit is clamped to `sa[-1]` with a warning
(returned as a warning count), otherwise `Exception` is raised. -/
def quantityStage (p : Spectrum) (fix : Bool) (q0 q1 : Quantity) :
    Except PyErr (SpectralRegion × Nat) :=
  let sa := p.spectral_axis
  let off : ℚ := if q0.unit = .vel then p.velOffset else 0
  let v0 := off + qConvert p q0
  let v1 := off + qConvert p q1
  let lo := min v0 v1
  let hi := max v0 v1
  match sa.head?, sa.getLast? with
  | some saF, some saL =>
    if lo < saF ∨ hi > saL then
      if fix then .ok (⟨⟨lo, .freq⟩, ⟨saL, .freq⟩⟩, 1)
      else .error .exception
    else .ok (⟨⟨lo, .freq⟩, ⟨hi, .freq⟩⟩, 0)
  | _, _ => .error .indexError

/-- One iteration of `exclude_to_region`'s loop (lines 71-110).  A channel
pair is bounds-checked against `[0, len(sa)-1]` — clamping the upper
index with a warning under `fix_exclude`, raising otherwise — then
converted through the axis (Python indexing) and handed, like a Quantity
pair, to the Quantity stage. -/
def processPair (p : Spectrum) (fix : Bool) : ExcPair → Except PyErr (SpectralRegion × Nat)
  | .chans lo hi =>
    let sa := p.spectral_axis
    let lastchan : Int := (sa.length : Int) - 1
    if lo < 0 ∨ hi > lastchan then
      if fix then
        match pyIndex sa lo, pyIndex sa lastchan with
        | some a, some b =>
          (quantityStage p fix ⟨a, .freq⟩ ⟨b, .freq⟩).map (fun rw => (rw.1, rw.2 + 1))
        | _, _ => .error .indexError
      else .error .exception
    else
      match pyIndex sa lo, pyIndex sa hi with
      | some a, some b => quantityStage p fix ⟨a, .freq⟩ ⟨b, .freq⟩
      | _, _ => .error .indexError
  | .quants q0 q1 => quantityStage p fix q0 q1

/-- The loop of `exclude_to_region` over a list of pairs, accumulating the
region list and the number of warnings issued. -/
def processPairs (p : Spectrum) (fix : Bool) :
    List ExcPair → Except PyErr (List SpectralRegion × Nat)
  | [] => .ok ([], 0)
  | pr :: rest =>
    match processPair p fix pr with
    | .error e => .error e
    | .ok (r, w) =>
      match processPairs p fix rest with
      | .error e => .error e
      | .ok (rs, ws) => .ok (r :: rs, w + ws)

/-- `exclude_to_region(exclude, refspec, fix_exclude)` from
src/dysh/spectra/core.py lines 27-112.  The result carries the returned
Python value — `none` models the function returning Python `None`, which
it does for `exclude=None` and for the single-`SpectralRegion` branch,
whose `regionlist.append` is followed by no `return` (the only `return
regionlist` sits inside the `else` branch) — plus the warning count.
In the single-region branch the bounds are compared against `sa[0]` and
`sa[1]` (the second element, as written at line 58), and entering the
out-of-bounds arm raises `NameError`, because the message f-string
references `pair`, which is undefined there. -/
def exclude_to_region (exc : Option Exclude) (p : Spectrum) (fix_exclude : Bool) :
    Except PyErr (Option (List SpectralRegion) × Nat) :=
  let sa := p.spectral_axis
  match exc with
  | none => .ok (none, 0)
  | some (.single r) =>
    match sa.get? 0 with
    | none => .error .indexError
    | some s0 =>
      if r.lower.unit ≠ .freq then .error .unitConversionError
      else if r.lower.val < s0 then .error .nameError
      else
        match sa.get? 1 with
        | none => .error .indexError
        | some s1 =>
          if r.upper.unit ≠ .freq then .error .unitConversionError
          else if r.upper.val > s1 then .error .nameError
          else .ok (none, 0)
  | some (.onePair pr) =>
    match processPair p fix_exclude pr with
    | .error e => .error e
    | .ok (r, w) => .ok (some [r], w)
  | some (.pairList ps) =>
    match ps with
    | [] => .error .indexError
    | _ :: _ =>
      match processPairs p fix_exclude ps with
      | .error e => .error e
      | .ok (rs, w) => .ok (some rs, w)

/-- The keyword arguments accepted by `baseline` that the embedded code
consults.  `exclude_region?` models the stray `exclude_region` keyword
that the error message at line 195 of core.py reads out of `kwargs`;
the `fitter` option is an opaque external collaborator and is elided. -/
structure BaselineKwargs where
  model? : Option String := none
  fix_exclude? : Option Bool := none
  exclude_action? : Option (Option String) := none
  exclude_region? : Option String := none

/-- The astropy model object `Polynomial1D(degree=order)` or
`Chebyshev1D(degree=order)`, kept as an opaque record. -/
structure FitModel where
  family : String
  degree : Int
deriving DecidableEq, Repr

/-- The call to the external `specutils.fitting.fit_continuum`: the model
and the `exclude_regions` argument it receives. -/
structure FitCall where
  model : FitModel
  regions : Option (List SpectralRegion)
deriving DecidableEq, Repr

/-- `baseline(spectrum, order, exclude, **kwargs)` from
src/dysh/spectra/core.py lines 143-217, returning the (possibly
mutated) spectrum and either an error or the value returned: `none` for
the all-NaN early return, otherwise the `fit_continuum` call made.
Note the invalid-`exclude_action` branch: its `ValueError` message
f-string reads `kwargs["exclude_region"]`, a key the caller never sets,
so it raises `KeyError` unless that stray keyword was passed. -/
def baseline (spectrum : Spectrum) (order : Int) (exclude : Option Exclude)
    (kw : BaselineKwargs) : Spectrum × Except PyErr (Option FitCall) :=
  let model := kw.model?.getD "polynomial"
  let fix_exclude := kw.fix_exclude?.getD false
  let exclude_action := kw.exclude_action?.getD (some "replace")
  if ¬ (model = "polynomial" ∨ model = "chebyshev") then
    (spectrum, .error .valueError)
  else
    let fitModel : FitModel := ⟨model, order⟩
    if ¬ (exclude_action = some "replace" ∨ exclude_action = some "append" ∨
        exclude_action = none) then
      match kw.exclude_region? with
      | none => (spectrum, .error .keyError)
      | some _ => (spectrum, .error .valueError)
    else if spectrum.data.all (fun x => x.isNone) then
      (spectrum, .ok none)
    else
      match exclude with
      | some _ =>
        match exclude_to_region exclude spectrum fix_exclude with
        | .error e => (spectrum, .error e)
        | .ok (rl, _) =>
          if exclude_action = some "replace" then
            ({ spectrum with exclude_regions := rl }, .ok (some ⟨fitModel, rl⟩))
          else if exclude_action = some "append" then
            match spectrum.exclude_regions, rl with
            | none, _ => (spectrum, .error .attributeError)
            | some _, none => (spectrum, .error .typeError)
            | some st, some nw =>
              ({ spectrum with exclude_regions := some (st ++ nw) },
                .ok (some ⟨fitModel, some (st ++ nw)⟩))
          else
            (spectrum, .ok (some ⟨fitModel, rl⟩))
      | none => (spectrum, .ok (some ⟨fitModel, spectrum.exclude_regions⟩))

/-! ### Helper lemmas about the numpy-layer embedding -/

lemma trim_length_eq {a b : List ℚ} (h : a.length = b.length) (n : Nat) :
    (trim a n).length = (trim b n).length := by
  simp [trim, pySlice, h]

lemma npBroadcast2_some (f : ℚ → ℚ → ℚ) (a b : List ℚ) (h : a.length = b.length) :
    npBroadcast2 f a b = some (List.zipWith f a b) := by
  simp [npBroadcast2, h]

lemma npBroadcast2_none (f : ℚ → ℚ → ℚ) (a b : List ℚ)
    (h1 : a.length ≠ b.length) (h2 : a.length ≠ 1) (h3 : b.length ≠ 1) :
    npBroadcast2 f a b = none := by
  rcases a with _ | ⟨x, _ | ⟨x2, xs⟩⟩ <;> rcases b with _ | ⟨y, _ | ⟨y2, ys⟩⟩ <;>
    simp_all [npBroadcast2]

lemma zipWith_div_of_sub (l1 l2 : List ℚ) :
    List.zipWith (fun a b => a / b) l2 (List.zipWith (fun a b => a - b) l1 l2) =
      List.zipWith (fun a b => b / (a - b)) l1 l2 := by
  induction l1 generalizing l2 with
  | nil => simp
  | cons x xs ih =>
    cases l2 with
    | nil => simp
    | cons y ys => simp [ih]

lemma dcmeantsysCore_formulas (calon caloff : List ℚ) (tcal : ℚ) (n : Nat)
    (h : calon.length = caloff.length) :
    dcmeantsysCore calon caloff tcal 0 n =
      .ok (npMean (trim caloff n) /
        npMean (List.zipWith (fun a b => a - b) (trim calon n) (trim caloff n)) * tcal + tcal / 2)
    ∧ dcmeantsysCore calon caloff tcal 1 n =
      .ok (npMean (List.zipWith (fun a b => b / (a - b)) (trim calon n) (trim caloff n)) *
        tcal + tcal / 2) := by
  have hlen := trim_length_eq h n
  have hsub := npBroadcast2_some (fun a b => a - b) (trim calon n) (trim caloff n) hlen
  have hlen2 : (trim caloff n).length =
      (List.zipWith (fun a b => a - b) (trim calon n) (trim caloff n)).length := by
    simp [hlen]
  have hdiv := npBroadcast2_some (fun a b => a / b) _ _ hlen2
  refine ⟨by simp [dcmeantsysCore, hsub], ?_⟩
  simp [dcmeantsysCore, hsub, hdiv, zipWith_div_of_sub]

/-! ### Claims C1, C2, C3, C10 about `dcmeantsys` -/

/-- C1, counterexample.  The claim asserts that with `nchan = 100` and
`fedge = 10` exactly `nchan - 2*nedge = 80` channels are retained.  The
code's slice `[nedge:-(nedge-1)]` retains 81 channels (deliberately, per
the GBTIDL-compatibility comment at lines 257-260 of core.py). -/
theorem trim_retained_count_cex :
    ¬ ((trim (List.replicate 100 (0:ℚ)) (100 / 10)).length = 100 - 2 * (100 / 10)) := by
  decide

/-- C1, amended.  When `edge_count` is not given, `dcmeantsys` uses
`nedge = nchan // fedge` and (for `nedge ≥ 2`) retains the window
`[nedge, nchan - nedge + 1)`, i.e. `nchan - 2*nedge + 1` channels, the
same trimming for either mode; for `nchan = 100, fedge = 10` this is 81
retained channels: 10 trimmed from the start and 9 from the end. -/
theorem trim_window_amended (xs : List ℚ) (fedge : Nat)
    (h2 : 2 ≤ xs.length / fedge) (h3 : 2 * (xs.length / fedge) ≤ xs.length + 1) :
    trim xs (xs.length / fedge) =
      (xs.take (xs.length + 1 - xs.length / fedge)).drop (xs.length / fedge)
    ∧ (trim xs (xs.length / fedge)).length = xs.length + 1 - 2 * (xs.length / fedge)
    ∧ (trim (List.replicate 100 (0:ℚ)) (100 / 10)).length = 81 := by
  set n := xs.length / fedge with hn
  have hstop : pySliceStop xs.length (1 - (n : Int)) = xs.length + 1 - n := by
    rw [pySliceStop, if_pos (by omega : (1 : Int) - (n : Int) < 0)]
    omega
  refine ⟨?_, ?_, by decide⟩
  · rw [trim, pySlice, hstop]
  · rw [trim, pySlice, hstop]
    simp only [List.length_drop, List.length_take]
    omega

/-- C1, witness for the amended theorem at `nchan = 100`, `fedge = 10`. -/
theorem trim_window_amended_witness :
    trim (List.replicate 100 (0:ℚ)) ((List.replicate 100 (0:ℚ)).length / 10) =
      ((List.replicate 100 (0:ℚ)).take
        ((List.replicate 100 (0:ℚ)).length + 1 - (List.replicate 100 (0:ℚ)).length / 10)).drop
        ((List.replicate 100 (0:ℚ)).length / 10)
    ∧ (trim (List.replicate 100 (0:ℚ)) ((List.replicate 100 (0:ℚ)).length / 10)).length =
      (List.replicate 100 (0:ℚ)).length + 1 - 2 * ((List.replicate 100 (0:ℚ)).length / 10)
    ∧ (trim (List.replicate 100 (0:ℚ)) (100 / 10)).length = 81 :=
  trim_window_amended (List.replicate 100 (0:ℚ)) 10 (by decide) (by decide)

/-- C2.  For equal-length `calon`/`caloff`, over the window the code trims,
`dcmeantsys` returns `mean(caloff)/mean(calon-caloff)*tcal + tcal/2` for
`mode = 0` and `mean(caloff/(calon-caloff))*tcal + tcal/2` for `mode = 1`.
The embedding is a pure function of its arguments, so the call has no
side effects on its inputs. -/
theorem dcmeantsys_mode_formulas (calon caloff : List ℚ) (tcal : ℚ)
    (fedge : Nat) (nedge? : Option Nat)
    (h : calon.length = caloff.length) (hf : nedge? = none → fedge ≠ 0) :
    dcmeantsys calon caloff tcal 0 fedge nedge? =
      .ok (npMean (trim caloff (dcNedge calon.length fedge nedge?)) /
        npMean (List.zipWith (fun a b => a - b)
          (trim calon (dcNedge calon.length fedge nedge?))
          (trim caloff (dcNedge calon.length fedge nedge?))) * tcal + tcal / 2)
    ∧ dcmeantsys calon caloff tcal 1 fedge nedge? =
      .ok (npMean (List.zipWith (fun a b => b / (a - b))
          (trim calon (dcNedge calon.length fedge nedge?))
          (trim caloff (dcNedge calon.length fedge nedge?))) * tcal + tcal / 2) := by
  cases nedge? with
  | some m => exact dcmeantsysCore_formulas calon caloff tcal m h
  | none =>
    have hf0 : fedge ≠ 0 := hf rfl
    have := dcmeantsysCore_formulas calon caloff tcal (calon.length / fedge) h
    simpa [dcmeantsys, dcNedge, hf0] using this

/-- C2, witness at `calon = [2,4]`, `caloff = [1,1]`, `tcal = 2`, `nedge = 0`. -/
theorem dcmeantsys_mode_formulas_witness :
    dcmeantsys [2,4] [1,1] 2 0 10 (some 0) =
      .ok (npMean (trim [1,1] 0) /
        npMean (List.zipWith (fun a b => a - b) (trim [2,4] 0) (trim [1,1] 0)) * 2 + 2 / 2)
    ∧ dcmeantsys [2,4] [1,1] 2 1 10 (some 0) =
      .ok (npMean (List.zipWith (fun a b => b / (a - b)) (trim [2,4] 0) (trim [1,1] 0)) *
        2 + 2 / 2) :=
  dcmeantsys_mode_formulas [2,4] [1,1] 2 10 (some 0) (by decide) (by decide)

/-- C3, counterexample.  `dcmeantsys` performs no length validation: for
`calon` of length 12 and `caloff` of length 4 (with `nedge = 2` the
trimmed windows have lengths 9 and 1, which numpy broadcasting accepts)
the call silently computes a value instead of raising anything. -/
theorem dcmeantsys_mismatch_silent_cex :
    ([0,1,2,3,4,5,6,7,8,9,10,11] : List ℚ).length ≠ ([0,1,2,3] : List ℚ).length
    ∧ dcmeantsys [0,1,2,3,4,5,6,7,8,9,10,11] [0,1,2,3] 1 0 10 (some 2) = .ok 1 := by
  constructor
  · decide
  · simp [dcmeantsys, dcmeantsysCore, npMean, trim, pySlice, pySliceStop, npBroadcast2]
    norm_num

/-- C3, amended.  When the trimmed `calon`/`caloff` windows are not
broadcast-compatible (different lengths, neither of length 1), the call
fails with the numpy broadcast `ValueError` — there is no dedicated
`ShapeMismatch` check, and broadcast-compatible mismatched inputs
compute silently (see the counterexample). -/
theorem dcmeantsys_broadcast_error (calon caloff : List ℚ) (tcal : ℚ) (mode : Int)
    (fedge n : Nat)
    (h1 : (trim calon n).length ≠ (trim caloff n).length)
    (h2 : (trim calon n).length ≠ 1) (h3 : (trim caloff n).length ≠ 1) :
    dcmeantsys calon caloff tcal mode fedge (some n) = .error .valueError := by
  have hb := npBroadcast2_none (fun a b => a - b) _ _ h1 h2 h3
  by_cases hm : mode = 0 <;> simp [dcmeantsys, dcmeantsysCore, hm, hb]

/-- C3, witness: lengths 6 and 5 with `nedge = 2` give trimmed windows of
lengths 3 and 2, and the call raises the broadcast error. -/
theorem dcmeantsys_broadcast_error_witness :
    dcmeantsys [0,1,2,3,4,5] [0,1,2,3,4] 1 7 10 (some 2) = .error .valueError :=
  dcmeantsys_broadcast_error [0,1,2,3,4,5] [0,1,2,3,4] 1 7 10 2
    (by decide) (by decide) (by decide)

lemma trim_zero (xs : List ℚ) : trim xs 0 = xs.take 1 := by
  cases xs <;> simp [trim, pySlice, pySliceStop]

/-- C10.  With `nedge = 0` — passed explicitly or computed as
`nchan // fedge` for `nchan < fedge` — the slice `[0:-(0-1)]` is `[0:1]`,
so `dcmeantsys` is computed from the first channel alone (both modes
collapse to `c0/(a0-c0)*tcal + tcal/2`), and the trimmed window is
`take 1`, not the whole array. -/
theorem dcmeantsys_nedge_zero (calon caloff : List ℚ) (a c tcal : ℚ) (mode : Int)
    (fedge : Nat) (ha : calon.head? = some a) (hc : caloff.head? = some c) :
    dcmeantsys calon caloff tcal mode fedge (some 0) = .ok (c / (a - c) * tcal + tcal / 2)
    ∧ (calon.length < fedge →
        dcmeantsys calon caloff tcal mode fedge none = .ok (c / (a - c) * tcal + tcal / 2))
    ∧ trim calon 0 = calon.take 1 := by
  have h1 : trim calon 0 = [a] := by
    rw [trim_zero]
    cases calon with
    | nil => simp at ha
    | cons x t => simp_all
  have h2 : trim caloff 0 = [c] := by
    rw [trim_zero]
    cases caloff with
    | nil => simp at hc
    | cons x t => simp_all
  have hcore : ∀ m : Int, dcmeantsysCore calon caloff tcal m 0 =
      .ok (c / (a - c) * tcal + tcal / 2) := by
    intro m
    by_cases hm : m = 0 <;> simp [dcmeantsysCore, hm, h1, h2, npBroadcast2, npMean]
  refine ⟨hcore mode, fun hlt => ?_, trim_zero calon⟩
  have hne : calon ≠ [] := by
    intro h0; rw [h0] at ha; simp at ha
  have hf0 : fedge ≠ 0 := by
    have := List.length_pos.mpr hne
    omega
  have hdiv : calon.length / fedge = 0 := Nat.div_eq_of_lt hlt
  simp [dcmeantsys, hf0, hdiv, hcore mode]

/-- C10, witness at `calon = [2,5]`, `caloff = [1,7]`, `tcal = 3`. -/
theorem dcmeantsys_nedge_zero_witness :
    dcmeantsys [2,5] [1,7] 3 0 10 (some 0) = .ok (1 / (2 - 1) * 3 + 3 / 2)
    ∧ (([2,5] : List ℚ).length < 10 →
        dcmeantsys [2,5] [1,7] 3 0 10 none = .ok (1 / (2 - 1) * 3 + 3 / 2))
    ∧ trim [2,5] 0 = ([2,5] : List ℚ).take 1 :=
  dcmeantsys_nedge_zero [2,5] [1,7] 2 1 3 0 10 rfl rfl

/-! ### Claims C4-C8 about `baseline` and `exclude_to_region` -/

/-- A concrete four-channel spectrum fixture: axis `[0,1,2,3]`, non-NaN
data, one stored exclusion region `[2,3]`. -/
def spEx : Spectrum :=
  { data := [some 1, some 2, some 3, some 4]
    spectral_axis := [0, 1, 2, 3]
    velToAxis := id
    velOffset := 0
    exclude_regions := some [⟨⟨2, .freq⟩, ⟨3, .freq⟩⟩] }

/-- A concrete spectrum fixture whose samples are all NaN. -/
def spNaN : Spectrum :=
  { data := [none, none]
    spectral_axis := [0, 1]
    velToAxis := id
    velOffset := 0
    exclude_regions := none }

lemma pyIndex_last (sa : List ℚ) (saL : ℚ) (h : sa.getLast? = some saL) :
    pyIndex sa ((sa.length : Int) - 1) = some saL := by
  have hne : sa ≠ [] := by rintro rfl; simp at h
  have hlen : 1 ≤ sa.length := List.length_pos.mpr hne
  have ht : (((sa.length : Int) - 1)).toNat = sa.length - 1 := by omega
  rw [pyIndex, if_neg (by omega : ¬ ((sa.length : Int) - 1 < 0))]
  simp only [if_neg (by omega : ¬ ((sa.length : Int) - 1 < 0)), ht]
  rw [List.get?_eq_getElem?, ← List.getLast?_eq_getElem?]
  exact h

lemma quantityStage_freq (p : Spectrum) (fix : Bool) (v0 v1 saF saL : ℚ)
    (hh : p.spectral_axis.head? = some saF) (hl : p.spectral_axis.getLast? = some saL)
    (h01 : v0 ≤ v1) :
    quantityStage p fix ⟨v0, .freq⟩ ⟨v1, .freq⟩ =
      if v0 < saF ∨ v1 > saL then
        if fix then .ok (⟨⟨v0, .freq⟩, ⟨saL, .freq⟩⟩, 1) else .error .exception
      else .ok (⟨⟨v0, .freq⟩, ⟨v1, .freq⟩⟩, 0) := by
  simp [quantityStage, qConvert, hh, hl, min_eq_left h01, max_eq_right h01]

/-- C4, counterexample.  `baseline` with `exclude_action=None` and a
non-None `exclude` computes `regionlist` from the `exclude` argument and
— since neither the replace nor the append branch runs — hands exactly
those regions (not the spectrum's stored ones) to `fit_continuum`: the
`exclude` argument is not ignored. -/
theorem baseline_none_action_cex :
    baseline spEx 1 (some (.onePair (.quants ⟨1, .freq⟩ ⟨2, .freq⟩)))
      { exclude_action? := some none } =
      (spEx, .ok (some ⟨⟨"polynomial", 1⟩, some [⟨⟨1, .freq⟩, ⟨2, .freq⟩⟩]⟩))
    ∧ (some [(⟨⟨1, .freq⟩, ⟨2, .freq⟩⟩ : SpectralRegion)] ≠ spEx.exclude_regions) := by
  constructor
  · simp [baseline, exclude_to_region, processPair, quantityStage, qConvert, spEx]
    norm_num
  · decide

/-- C4, amended.  With `exclude_action=None` and a non-None `exclude` that
normalizes successfully (valid model, spectrum not all-NaN), the fit is
called with the regions normalized from the `exclude` argument — the
argument is not ignored — while the spectrum, in particular its stored
exclusion-region list, is left unchanged. -/
theorem baseline_none_action_uses_exclude (sp : Spectrum) (order : Int) (exc : Exclude)
    (kw : BaselineKwargs) (rl : Option (List SpectralRegion)) (w : Nat)
    (hact : kw.exclude_action? = some none)
    (hm : kw.model?.getD "polynomial" = "polynomial" ∨
      kw.model?.getD "polynomial" = "chebyshev")
    (hnan : sp.data.all (fun x => x.isNone) = false)
    (hexc : exclude_to_region (some exc) sp (kw.fix_exclude?.getD false) = .ok (rl, w)) :
    baseline sp order (some exc) kw =
      (sp, .ok (some ⟨⟨kw.model?.getD "polynomial", order⟩, rl⟩)) := by
  rcases hm with hm | hm <;> simp [baseline, hact, hm, hnan, hexc]

/-- C4, witness for the amended theorem at the fixture spectrum. -/
theorem baseline_none_action_uses_exclude_witness :
    baseline spEx 1 (some (.onePair (.quants ⟨1, .freq⟩ ⟨2, .freq⟩)))
      { exclude_action? := some none } =
      (spEx, .ok (some ⟨⟨"polynomial", 1⟩, some [⟨⟨1, .freq⟩, ⟨2, .freq⟩⟩]⟩)) :=
  baseline_none_action_uses_exclude spEx 1 (.onePair (.quants ⟨1, .freq⟩ ⟨2, .freq⟩))
    { exclude_action? := some none } (some [⟨⟨1, .freq⟩, ⟨2, .freq⟩⟩]) 0
    rfl (Or.inl rfl) rfl
    (by simp [exclude_to_region, processPair, quantityStage, qConvert, spEx]; norm_num)

/-- C5.  The claim says an unrecognized `exclude_action` raises the
invalid-option `ValueError` immediately at entry.  The code intends to,
but the error message f-string reads `kwargs["exclude_region"]` — a key
the caller never set — so the call raises `KeyError` instead (the
spectrum is indeed left unmodified and no fitting happens). -/
theorem baseline_invalid_action_keyerror :
    baseline spEx 1 none { exclude_action? := some (some "merge") } =
      (spEx, .error .keyError) := by
  simp [baseline]

/-- C6, counterexample.  A pre-built `SpectralRegion` whose upper bound
(9) lies beyond the axis maximum (3), passed with `fix_exclude=True`:
the claim says the bound is clamped with a warning and normalization
completes, but the code has no clamp path for this shape — the
out-of-bounds branch raises (a `NameError`, since its message f-string
references the undefined `pair`). -/
theorem exclude_single_fix_cex :
    exclude_to_region (some (.single ⟨⟨0, .freq⟩, ⟨9, .freq⟩⟩)) spEx true =
      .error .nameError := by
  simp [exclude_to_region, spEx]

/-- C6, amended.  Clamping under `fix_exclude=True` (with one warning) and
raising under `fix_exclude=False` hold for channel-index pairs and
physical-unit pairs, and the region produced from a clamped pair whose
lower bound is in bounds lies within the axis extent; but a single
pre-built `SpectralRegion` with out-of-bounds bounds raises regardless
of `fix_exclude` (a `NameError`, and the bounds are compared against
`sa[1]` rather than the axis maximum). -/
theorem exclude_region_bounds_policy :
    (∀ (p : Spectrum) (lo hi : Int) (a saF saL : ℚ),
      p.spectral_axis.head? = some saF → p.spectral_axis.getLast? = some saL →
      pyIndex p.spectral_axis lo = some a → 0 ≤ lo →
      (p.spectral_axis.length : Int) - 1 < hi → saF ≤ a → a ≤ saL →
      exclude_to_region (some (.onePair (.chans lo hi))) p true =
        .ok (some [⟨⟨a, .freq⟩, ⟨saL, .freq⟩⟩], 1)
      ∧ exclude_to_region (some (.onePair (.chans lo hi))) p false = .error .exception)
    ∧ (∀ (p : Spectrum) (v0 v1 saF saL : ℚ),
      p.spectral_axis.head? = some saF → p.spectral_axis.getLast? = some saL →
      saF ≤ v0 → v0 ≤ saL → saL < v1 →
      exclude_to_region (some (.onePair (.quants ⟨v0, .freq⟩ ⟨v1, .freq⟩))) p true =
        .ok (some [⟨⟨v0, .freq⟩, ⟨saL, .freq⟩⟩], 1)
      ∧ exclude_to_region (some (.onePair (.quants ⟨v0, .freq⟩ ⟨v1, .freq⟩))) p false =
        .error .exception)
    ∧ (∀ (p : Spectrum) (r : SpectralRegion) (s0 s1 : ℚ) (fix : Bool),
      r.lower.unit = .freq → r.upper.unit = .freq →
      p.spectral_axis.get? 0 = some s0 → p.spectral_axis.get? 1 = some s1 →
      (r.lower.val < s0 ∨ r.upper.val > s1) →
      exclude_to_region (some (.single r)) p fix = .error .nameError) := by
  refine ⟨?_, ?_, ?_⟩
  · intro p lo hi a saF saL hh hl hidx hlo hhi haF haL
    have hlast := pyIndex_last p.spectral_axis saL hl
    have hcond : lo < 0 ∨ (p.spectral_axis.length : Int) - 1 < hi := Or.inr hhi
    have hq := quantityStage_freq p true a saL saF saL hh hl haL
    have hnl : ¬ a < saF := not_lt.mpr haF
    constructor
    · simp [exclude_to_region, processPair, hcond, hidx, hlast, hq, hnl, Except.map]
    · simp [exclude_to_region, processPair, hcond]
  · intro p v0 v1 saF saL hh hl hF h0L hL1
    have hq := fun fix => quantityStage_freq p fix v0 v1 saF saL hh hl (le_of_lt (lt_of_le_of_lt h0L hL1))
    have hcond : v0 < saF ∨ v1 > saL := Or.inr hL1
    constructor
    · simp [exclude_to_region, processPair, hq true, hcond]
    · simp [exclude_to_region, processPair, hq false, hcond]
  · intro p r s0 s1 fix hu0 hu1 h0 h1 hout
    rw [List.get?_eq_getElem?] at h0 h1
    by_cases hlow : r.lower.val < s0
    · simp [exclude_to_region, h0, hu0, hlow]
    · rcases hout with h | h
      · exact absurd h hlow
      · simp [exclude_to_region, h0, h1, hu0, hu1, hlow, h]

/-- C6, witness for the amended theorem at the fixture spectrum: a
clamped channel pair, a clamped physical pair, the corresponding
no-`fix_exclude` errors, and an out-of-bounds single region. -/
theorem exclude_region_bounds_policy_witness :
    exclude_to_region (some (.onePair (.chans 1 7))) spEx true =
      .ok (some [⟨⟨1, .freq⟩, ⟨3, .freq⟩⟩], 1)
    ∧ exclude_to_region (some (.onePair (.chans 1 7))) spEx false = .error .exception
    ∧ exclude_to_region (some (.onePair (.quants ⟨1, .freq⟩ ⟨9, .freq⟩))) spEx true =
      .ok (some [⟨⟨1, .freq⟩, ⟨3, .freq⟩⟩], 1)
    ∧ exclude_to_region (some (.onePair (.quants ⟨1, .freq⟩ ⟨9, .freq⟩))) spEx false =
      .error .exception
    ∧ exclude_to_region (some (.single ⟨⟨0, .freq⟩, ⟨9, .freq⟩⟩)) spEx false =
      .error .nameError :=
  ⟨(exclude_region_bounds_policy.1 spEx 1 7 1 0 3 rfl rfl rfl (by decide) (by decide)
      (by norm_num) (by norm_num)).1,
   (exclude_region_bounds_policy.1 spEx 1 7 1 0 3 rfl rfl rfl (by decide) (by decide)
      (by norm_num) (by norm_num)).2,
   (exclude_region_bounds_policy.2.1 spEx 1 9 0 3 rfl rfl (by norm_num) (by norm_num)
      (by norm_num)).1,
   (exclude_region_bounds_policy.2.1 spEx 1 9 0 3 rfl rfl (by norm_num) (by norm_num)
      (by norm_num)).2,
   exclude_region_bounds_policy.2.2 spEx ⟨⟨0, .freq⟩, ⟨9, .freq⟩⟩ 0 1 false rfl rfl rfl rfl
      (Or.inr (by norm_num))⟩

/-- C7.  A single in-bounds `SpectralRegion` passed as `exclude`: the code
appends it to `regionlist`, but the function's only `return regionlist`
statement sits inside the other branch, so the call returns Python
`None` — not the one-element list the docstring promises. -/
theorem exclude_single_returns_none :
    exclude_to_region (some (.single ⟨⟨0, .freq⟩, ⟨1, .freq⟩⟩)) spEx false =
      .ok (none, 0) := by
  simp [exclude_to_region, spEx]

/-- C8, counterexample.  An all-NaN spectrum with an invalid model name:
the model check runs before the all-NaN early return, so the call
raises `ValueError` instead of returning no model. -/
theorem baseline_allnan_model_cex :
    baseline spNaN 1 none { model? := some "foo" } = (spNaN, .error .valueError)
    ∧ (Except.error PyErr.valueError : Except PyErr (Option FitCall)) ≠ .ok none := by
  constructor
  · simp [baseline]
  · simp

/-- C8, amended.  For every all-NaN spectrum, provided the model name and
`exclude_action` are valid, `baseline` skips fitting and returns no
model (`None`) without error, for every order and every `exclude`
argument (including ones that would fail to normalize — the NaN check
runs before `exclude` is touched). -/
theorem baseline_allnan_skips (sp : Spectrum) (order : Int) (exc : Option Exclude)
    (kw : BaselineKwargs)
    (hnan : sp.data.all (fun x => x.isNone) = true)
    (hm : kw.model?.getD "polynomial" = "polynomial" ∨
      kw.model?.getD "polynomial" = "chebyshev")
    (ha : kw.exclude_action?.getD (some "replace") = some "replace" ∨
      kw.exclude_action?.getD (some "replace") = some "append" ∨
      kw.exclude_action?.getD (some "replace") = none) :
    baseline sp order exc kw = (sp, .ok none) := by
  rcases hm with hm | hm <;> rcases ha with ha | ha | ha <;> simp [baseline, hm, ha, hnan]

/-- C8, witness at the all-NaN fixture with default options and an
out-of-bounds `exclude`. -/
theorem baseline_allnan_skips_witness :
    baseline spNaN 1 (some (.onePair (.chans (-3) 99))) {} = (spNaN, .ok none) :=
  baseline_allnan_skips spNaN 1 (some (.onePair (.chans (-3) 99))) {} rfl
    (Or.inl rfl) (Or.inl rfl)

/-! ### Claim C9 about `veldef_to_convention` -/

lemma prefix4_iff (v p : List Char) (hp : p.length = 4) :
    p <+: v.map Char.toLower ↔ (v.take 4).map Char.toLower = p := by
  constructor
  · intro h
    obtain ⟨t, ht⟩ := h
    have h4 : (v.map Char.toLower).take 4 = p := by
      rw [← ht, ← hp, List.take_left]
    rw [List.map_take]
    exact h4
  · intro h
    refine ⟨(v.map Char.toLower).drop 4, ?_⟩
    rw [← h, List.map_take, List.take_append_drop]

/-- C9.  `veldef_to_convention` maps a VELDEF string by its (lowercased)
four-character prefix: `opti* → optical`, `velo*`/`radi* → radio`,
`rela* → relativistic`, anything else → `None`. -/
theorem veldef_prefix_mapping (v : List Char) :
    ("opti".toList <+: v.map Char.toLower → veldef_to_convention v = some "optical")
    ∧ (("velo".toList <+: v.map Char.toLower ∨ "radi".toList <+: v.map Char.toLower) →
        veldef_to_convention v = some "radio")
    ∧ ("rela".toList <+: v.map Char.toLower → veldef_to_convention v = some "relativistic")
    ∧ (¬ "opti".toList <+: v.map Char.toLower → ¬ "velo".toList <+: v.map Char.toLower →
       ¬ "radi".toList <+: v.map Char.toLower → ¬ "rela".toList <+: v.map Char.toLower →
        veldef_to_convention v = none) := by
  refine ⟨?_, ?_, ?_, ?_⟩
  · intro h
    have hx := (prefix4_iff v _ (by decide)).mp h
    rw [veldef_to_convention, hx]
    decide
  · intro h
    rcases h with h | h <;>
    · have hx := (prefix4_iff v _ (by decide)).mp h
      rw [veldef_to_convention, hx]
      decide
  · intro h
    have hx := (prefix4_iff v _ (by decide)).mp h
    rw [veldef_to_convention, hx]
    decide
  · intro h1 h2 h3 h4
    have n1 : (v.take 4).map Char.toLower ≠ "opti".toList :=
      fun he => h1 ((prefix4_iff v _ (by decide)).mpr he)
    have n2 : (v.take 4).map Char.toLower ≠ "velo".toList :=
      fun he => h2 ((prefix4_iff v _ (by decide)).mpr he)
    have n3 : (v.take 4).map Char.toLower ≠ "radi".toList :=
      fun he => h3 ((prefix4_iff v _ (by decide)).mpr he)
    have n4 : (v.take 4).map Char.toLower ≠ "rela".toList :=
      fun he => h4 ((prefix4_iff v _ (by decide)).mpr he)
    rw [veldef_to_convention, if_neg n1, if_neg (by tauto), if_neg n4]

/-- C9, witness on concrete VELDEF strings. -/
theorem veldef_prefix_mapping_witness :
    veldef_to_convention "OPTI-HELO".toList = some "optical"
    ∧ veldef_to_convention "VELO-LSR".toList = some "radio"
    ∧ veldef_to_convention "RELA-BAR".toList = some "relativistic"
    ∧ veldef_to_convention "FREQ-OBS".toList = none :=
  ⟨(veldef_prefix_mapping _).1 (by decide),
   (veldef_prefix_mapping _).2.1 (Or.inl (by decide)),
   (veldef_prefix_mapping _).2.2.1 (by decide),
   (veldef_prefix_mapping _).2.2.2 (by decide) (by decide) (by decide) (by decide)⟩

end Dysh
